import Mathlib

/-!
# Verification of the Hydrict dashboard metrics aggregator

Shallow embedding of the data model and computations of the Hydrict
dashboard (`src/App.tsx`, `src/utils/csvParser.ts`, and the shared type
declarations).  Monetary values (TypeScript `number`) are modelled as
rationals `ℚ`; a possibly-NaN JavaScript number is modelled as
`Option ℚ` with `none` for NaN.  JavaScript truthiness (`x || y`) is
modelled explicitly by the `jsOr*` helpers.
-/

namespace Hydrict

/-- JavaScript `x || y` on numbers: `0` (and `NaN`, excluded here) is falsy. -/
def jsOrQ (x y : ℚ) : ℚ := if x = 0 then y else x

/-- JavaScript `x || y` where `x` is a possibly-NaN number (`none` = NaN). -/
def jsOrN (x : Option ℚ) (y : Option ℚ) : Option ℚ :=
  match x with
  | none => y
  | some v => if v = 0 then y else some v

/-- JavaScript `x || y` where `x` is a possibly-`undefined` string
(`none` = `undefined`; the empty string is falsy). -/
def jsOrS (x : Option String) (y : String) : String :=
  match x with
  | none => y
  | some s => if s = "" then y else s

/-! ## Data model (the `types` declarations) -/

/-- `interface LineItem`. -/
structure LineItem where
  sku : String
  title : String
  quantity : ℚ
  price : ℚ
deriving DecidableEq, Repr

/-- `interface ShopifyOrder`. -/
structure ShopifyOrder where
  id : String
  name : String
  date : String
  total : ℚ
  subtotal : ℚ
  tax : ℚ
  shipping : ℚ
  lineItems : List LineItem
  status : String
deriving DecidableEq, Repr

/-- `interface MetaAdReport`. -/
structure MetaAdReport where
  date : String
  campaignName : String
  spend : ℚ
  impressions : ℚ
  clicks : ℚ
deriving DecidableEq, Repr

/-- `interface SettlementReport` (`status` kept as a plain string). -/
structure SettlementReport where
  orderName : String
  amountReceived : ℚ
  fees : ℚ
  status : String
deriving DecidableEq, Repr

/-- `interface ManualExpense`. -/
structure ManualExpense where
  id : String
  category : String
  amount : ℚ
  note : String
deriving DecidableEq, Repr

/-- `interface ProductCOGS`. -/
structure ProductCOGS where
  sku : String
  productName : String
  cogs : ℚ
deriving DecidableEq, Repr

/-- `interface DashboardStats` (`totalOrders` is `orders.length`, kept as `ℕ`). -/
structure DashboardStats where
  totalSales : ℚ
  totalOrders : ℕ
  totalAdSpend : ℚ
  totalCogs : ℚ
  totalShipping : ℚ
  totalFees : ℚ
  netProfit : ℚ
  roas : ℚ
  netMargin : ℚ
deriving DecidableEq, Repr

/-! ## The statistics computation (`stats` memo, `src/App.tsx` lines 39–72) -/

/-- `list.reduce((acc, curr) => acc + f curr, 0)`. -/
def sumBy {α : Type} (f : α → ℚ) (l : List α) : ℚ :=
  l.foldl (fun acc curr => acc + f curr) 0

/-- `cogs.find(c => c.sku === item.sku)?.cogs || 0` for one line item. -/
def itemCogsOf (cogs : List ProductCOGS) (item : LineItem) : ℚ :=
  match cogs.find? (fun c => c.sku = item.sku) with
  | none => 0
  | some c => jsOrQ c.cogs 0

/-- The `totalCogs` accumulation: nested `forEach` over orders and their
line items, adding `itemCogs * item.quantity`. -/
def totalCogsOf (cogs : List ProductCOGS) (orders : List ShopifyOrder) : ℚ :=
  orders.foldl
    (fun acc o =>
      o.lineItems.foldl (fun acc2 item => acc2 + itemCogsOf cogs item * item.quantity) acc)
    0

/-- The `stats` computation of `App.tsx` (lines 39–72), as a function of the
component state it reads: `orders`, `ads`, `settlements`, `expenses`, `cogs`. -/
def stats (orders : List ShopifyOrder) (ads : List MetaAdReport)
    (settlements : List SettlementReport) (expenses : List ManualExpense)
    (cogs : List ProductCOGS) : DashboardStats :=
  let totalSales := sumBy ShopifyOrder.total orders
  let totalAdSpend := sumBy MetaAdReport.spend ads
  let totalShipping := sumBy ShopifyOrder.shipping orders
  let totalExpenses := sumBy ManualExpense.amount expenses
  let totalCogs := totalCogsOf cogs orders
  let totalFees := jsOrQ (sumBy SettlementReport.fees settlements) (totalSales * (3 / 100))
  let netProfit := totalSales - totalAdSpend - totalCogs - totalShipping - totalExpenses - totalFees
  let roas := if totalAdSpend > 0 then totalSales / totalAdSpend else 0
  let netMargin := if totalSales > 0 then netProfit / totalSales * 100 else 0
  { totalSales := totalSales
    totalOrders := orders.length
    totalAdSpend := totalAdSpend
    totalCogs := totalCogs
    totalShipping := totalShipping
    totalFees := totalFees
    netProfit := netProfit
    roas := roas
    netMargin := netMargin }

/-! ## The revenue series (`chartData` memo, `src/App.tsx` lines 80–89) -/

/-- One bucket of the `dailyData` record: `{ date, sales, orders }`. -/
structure DailyDatum where
  date : String
  sales : ℚ
  orders : ℕ
deriving DecidableEq, Repr

/-- One iteration of the `orders.forEach` loop over the `dailyData` record:
create the bucket for `o.date` if absent (JS objects keep string keys in
insertion order, so a fresh bucket is appended at the end), then add
`o.total` to its `sales` and `1` to its `orders`. -/
def addDaily (daily : List DailyDatum) (o : ShopifyOrder) : List DailyDatum :=
  if daily.any (fun d => d.date = o.date) then
    daily.map (fun d =>
      if d.date = o.date then { d with sales := d.sales + o.total, orders := d.orders + 1 } else d)
  else
    daily ++ [{ date := o.date, sales := o.total, orders := 1 }]

/-- Digits-to-number accumulator. -/
def decDigitsAux : List Char → ℕ → Option ℕ
  | [], acc => some acc
  | c :: rest, acc =>
    if c.isDigit then decDigitsAux rest (acc * 10 + (c.toNat - 48)) else none

/-- A nonempty all-digit string of characters, as a number. -/
def decDigits? (cs : List Char) : Option ℕ :=
  match cs with
  | [] => none
  | _ => decDigitsAux cs 0

/-- Split a character list on a separator character (every occurrence). -/
def splitOnChar (sep : Char) : List Char → List (List Char)
  | [] => [[]]
  | c :: rest =>
    if c = sep then [] :: splitOnChar sep rest
    else
      match splitOnChar sep rest with
      | [] => [[c]]
      | g :: gs => (c :: g) :: gs

/-- Numeric sort key modelling `new Date(s).getTime()` for the ISO
`YYYY-MM-DD` date strings this app uses: `getTime` is strictly monotone in
`(year, month, day)`, so any strictly monotone reencoding such as
`y*10000 + m*100 + d` induces the same ordering under the sort comparator
`(a, b) => new Date(a.date).getTime() - new Date(b.date).getTime()`.
Strings that are not three dash-separated decimal components map to `0`. -/
def dateKey (s : String) : ℤ :=
  match (splitOnChar '-' s.toList).map decDigits? with
  | [some y, some m, some d] => (y * 10000 + m * 100 + d : ℤ)
  | _ => 0

/-- The bucket order used by the sort comparator
`(a, b) => new Date(a.date).getTime() - new Date(b.date).getTime()`. -/
def dailyLe (a b : DailyDatum) : Prop := dateKey a.date ≤ dateKey b.date

instance : DecidableRel dailyLe :=
  fun a b => Int.decLe (dateKey a.date) (dateKey b.date)

instance : IsTotal DailyDatum dailyLe :=
  ⟨fun a b => Int.le_total (dateKey a.date) (dateKey b.date)⟩

instance : IsTrans DailyDatum dailyLe := ⟨fun _ _ _ h1 h2 => le_trans h1 h2⟩

/-- `chartData` (`src/App.tsx` lines 80–89): fold the orders into date
buckets, then sort the buckets with the ascending date comparator.
`Array.prototype.sort` is a stable sort; it is modelled by the stable
`List.insertionSort` on the `dailyLe` order (all stable sorts of a list
under the same total preorder produce the same output). -/
def chartData (orders : List ShopifyOrder) : List DailyDatum :=
  (orders.foldl addDaily []).insertionSort dailyLe

/-- Modelled from the spec: the date-range membership test of the specified
Metrics Aggregator (spec §4.1 step 1), absent from `src/App.tsx` — a record
is in range when its `YYYY-MM-DD` date lies within `[startDate, endDate]`
inclusive, compared at day granularity. -/
def dayInRange (startDate endDate date : String) : Bool :=
  decide (dateKey startDate ≤ dateKey date ∧ dateKey date ≤ dateKey endDate)

/-- Modelled from the spec: the order filter of the specified Metrics
Aggregator (spec §4.1 step 1), absent from `src/App.tsx`. -/
def specFilterOrders (startDate endDate : String) (orders : List ShopifyOrder) :
    List ShopifyOrder :=
  orders.filter (fun o => dayInRange startDate endDate o.date)

/-! ## The CSV parser (`src/utils/csvParser.ts`) -/

/-- A parsed CSV row: the plain JS object built per line, kept as an
association list in key-insertion order; assigning an existing key
overwrites in place (JS object semantics). -/
abbrev Row := List (String × String)

/-- JS `obj[k] = v` on the association-list model. -/
def objSet (obj : Row) (k v : String) : Row :=
  if obj.any (fun p => p.1 = k) then
    obj.map (fun p => if p.1 = k then (k, v) else p)
  else obj ++ [(k, v)]

/-- JS `obj.k` / `obj[k]` (`none` = `undefined`). -/
def getF (obj : Row) (k : String) : Option String :=
  (obj.find? (fun p => p.1 = k)).map Prod.snd

/-- Drop leading and trailing whitespace from a character list. -/
def trimChars (cs : List Char) : List Char :=
  ((cs.dropWhile Char.isWhitespace).reverse.dropWhile Char.isWhitespace).reverse

/-- JS `String.prototype.trim`, modelled character-wise. -/
def stringTrim (s : String) : String :=
  String.mk (trimChars s.toList)

/-- The character scanner of `splitLine`: state is the remaining input, the
(reversed) current field `cur`, and the `inQuotes` flag.  A double quote
toggles the flag (and is dropped); a comma outside quotes ends the field,
which is pushed trimmed; everything else is appended to `cur`. -/
def splitLineAux : List Char → List Char → Bool → List String
  | [], cur, _ => [stringTrim (String.mk cur.reverse)]
  | ch :: rest, cur, inQuotes =>
    if ch = '"' then splitLineAux rest cur (!inQuotes)
    else if ch = ',' ∧ inQuotes = false then
      stringTrim (String.mk cur.reverse) :: splitLineAux rest [] inQuotes
    else splitLineAux rest (ch :: cur) inQuotes

/-- `splitLine` of `parseCSV` (`src/utils/csvParser.ts` lines 6–23). -/
def splitLine (line : String) : List String :=
  splitLineAux line.toList [] false

/-- `text.split(/\r?\n/)`: split on `\n` or `\r\n`; a lone `\r` is not a
separator. -/
def splitNewlines : List Char → List (List Char)
  | [] => [[]]
  | '\r' :: '\n' :: rest => [] :: splitNewlines rest
  | '\n' :: rest => [] :: splitNewlines rest
  | c :: rest =>
    match splitNewlines rest with
    | [] => [[c]]
    | g :: gs => (c :: g) :: gs

/-- `.replace(/^"|"$/g, '')`: remove one leading and one trailing double
quote, when present. -/
def stripOuterQuotes (s : String) : String :=
  let l1 := match s.toList with
    | '"' :: rest => rest
    | l => l
  let l2 := match l1.reverse with
    | '"' :: rest => rest.reverse
    | _ => l1
  String.mk l2

/-- Building the row object (`src/utils/csvParser.ts` lines 29–34): for each
nonempty header, assign the value at the same index, an empty string when the
value is missing or empty. -/
def buildObj (headers values : List String) : Row :=
  headers.enum.foldl
    (fun obj p => if p.2 ≠ "" then objSet obj p.2 (jsOrS (values.get? p.1) "") else obj) []

/-- `parseCSV` (`src/utils/csvParser.ts` lines 2–37), the parser imported by
`App.tsx`: split into lines, drop blank lines, scan the header line and every
data line with `splitLine`, strip outer quotes, and build one object per data
row. -/
def parseCSV (text : String) : List Row :=
  let lines := ((splitNewlines text.toList).map (fun cs => String.mk cs)).filter
    (fun line => stringTrim line ≠ "")
  match lines with
  | [] => []
  | first :: rest =>
    let headers := (splitLine first).map stripOuterQuotes
    rest.map (fun line => buildObj headers ((splitLine line).map stripOuterQuotes))

/-! ## JavaScript numeric parsing (`parseFloat` / `parseInt`)

A possibly-NaN number is `Option ℚ` with `none` for NaN.  Non-finite parses
(`Infinity`), which none of the verified claims involve, are outside the
model. -/

/-- Value of a digit run (most significant first). -/
def digitsVal (ds : List Char) : ℕ :=
  ds.foldl (fun a c => a * 10 + (c.toNat - 48)) 0

/-- Split off a maximal run of decimal digits. -/
def takeDigits (cs : List Char) : List Char × List Char :=
  (cs.takeWhile Char.isDigit, cs.dropWhile Char.isDigit)

/-- Exponent part after the `e`/`E`: an optional sign and digits; an absent
or empty exponent deserts the `e` and contributes factor `10 ^ 0`. -/
def parseExpPart (cs : List Char) : ℤ :=
  let signed : ℤ × List Char :=
    match cs with
    | '-' :: rest => (-1, rest)
    | '+' :: rest => (1, rest)
    | _ => (1, cs)
  let ds := (takeDigits signed.2).1
  if ds = [] then 0 else signed.1 * digitsVal ds

/-- `parseFloat` after leading whitespace: optional sign, integer digits,
optional fraction, optional exponent; NaN (`none`) when there is no digit in
the mantissa. -/
def jsParseFloatCore (cs : List Char) : Option ℚ :=
  let signed : ℚ × List Char :=
    match cs with
    | '-' :: rest => (-1, rest)
    | '+' :: rest => (1, rest)
    | _ => (1, cs)
  let intPart := takeDigits signed.2
  let fracPart : List Char × List Char :=
    match intPart.2 with
    | '.' :: rest => takeDigits rest
    | _ => ([], intPart.2)
  if intPart.1 = [] ∧ fracPart.1 = [] then none
  else
    let mant : ℚ := (digitsVal intPart.1 : ℚ) + (digitsVal fracPart.1 : ℚ) / (10 ^ fracPart.1.length : ℚ)
    let expo : ℤ :=
      match fracPart.2 with
      | 'e' :: rest => parseExpPart rest
      | 'E' :: rest => parseExpPart rest
      | _ => 0
    some (signed.1 * mant * (10 : ℚ) ^ expo)

/-- JS `parseFloat`. -/
def jsParseFloat (s : String) : Option ℚ :=
  jsParseFloatCore (s.toList.dropWhile Char.isWhitespace)

/-- Hexadecimal digit value. -/
def hexDigit? (c : Char) : Option ℕ :=
  if c.isDigit then some (c.toNat - 48)
  else if 97 ≤ c.toNat ∧ c.toNat ≤ 102 then some (c.toNat - 87)
  else if 65 ≤ c.toNat ∧ c.toNat ≤ 70 then some (c.toNat - 55)
  else none

/-- Value of a maximal hexadecimal digit run, `none` when empty. -/
def takeHexVal (cs : List Char) : Option ℕ :=
  let run := cs.takeWhile (fun c => (hexDigit? c).isSome)
  if run = [] then none
  else some (run.foldl (fun a c => a * 16 + (hexDigit? c).getD 0) 0)

/-- JS `parseInt` with no radix argument: leading whitespace, optional sign,
then either a `0x`/`0X` hexadecimal digit run or a decimal digit run; NaN
(`none`) when no digits follow. -/
def jsParseInt (s : String) : Option ℤ :=
  let cs := s.toList.dropWhile Char.isWhitespace
  let signed : ℤ × List Char :=
    match cs with
    | '-' :: rest => (-1, rest)
    | '+' :: rest => (1, rest)
    | _ => (1, cs)
  match signed.2 with
  | '0' :: 'x' :: rest => (takeHexVal rest).map (fun n => signed.1 * n)
  | '0' :: 'X' :: rest => (takeHexVal rest).map (fun n => signed.1 * n)
  | rest =>
    let ds := (takeDigits rest).1
    if ds = [] then none else some (signed.1 * digitsVal ds)

/-- JS `x || d` where `x` is a possibly-NaN number and `d` a number. -/
def jsOrQD (x : Option ℚ) (d : ℚ) : ℚ :=
  match x with
  | none => d
  | some v => if v = 0 then d else v

/-- JS `x || d` for a possibly-NaN `parseInt` result. -/
def jsOrZD (x : Option ℤ) (d : ℤ) : ℤ :=
  match x with
  | none => d
  | some v => if v = 0 then d else v

/-! ## The upload handler (`handleFileUpload`, `src/App.tsx` lines 91–126) -/

/-- `type ReportType`. -/
inductive ReportType where
  | shopify_orders
  | shopify_sales
  | meta_ads
  | settlement
  | cogs
  | expenses
deriving DecidableEq, Repr

/-- The component state `handleFileUpload` and `stats` read and write. -/
structure AppState where
  orders : List ShopifyOrder
  ads : List MetaAdReport
  settlements : List SettlementReport
  expenses : List ManualExpense
  cogs : List ProductCOGS
deriving DecidableEq, Repr

/-- The `stats` memo as a function of the component state. -/
def statsOf (s : AppState) : DashboardStats :=
  stats s.orders s.ads s.settlements s.expenses s.cogs

/-- `parseFloat` of a row field (`parseFloat(row.K)`); a missing field is
`parseFloat(undefined) = NaN`. -/
def numField (row : Row) (k : String) : Option ℚ :=
  (getF row k).bind jsParseFloat

/-- `parseInt` of a row field. -/
def intField (row : Row) (k : String) : Option ℤ :=
  (getF row k).bind jsParseInt

/-- The per-row order mapping of `handleFileUpload` for `shopify_orders`
(`src/App.tsx` lines 102–112).  `today` stands for
`new Date().toISOString().split(.T.)[0]` (the system clock, injected). -/
def mapOrder (today : String) (idx : ℕ) (row : Row) : ShopifyOrder :=
  { id := jsOrS (getF row "Id") (jsOrS (getF row "Name") (toString idx))
    name := jsOrS (getF row "Name") ("Order-" ++ toString idx)
    date := jsOrS (getF row "Created at") (jsOrS (getF row "Date") today)
    total := jsOrQD (numField row "Total") 0
    subtotal := jsOrQD (numField row "Subtotal") 0
    tax := jsOrQD (numField row "Tax") 0
    shipping := jsOrQD (numField row "Shipping") 0
    status := jsOrS (getF row "Status") "Paid"
    lineItems := [{ sku := jsOrS (getF row "SKU") "UNKNOWN"
                    title := jsOrS (getF row "Title") "Product"
                    quantity := ((jsOrZD (intField row "Quantity") 1 : ℤ) : ℚ)
                    price := jsOrQD (numField row "Price") 0 }] }

/-- The per-row ad mapping of `handleFileUpload` for `meta_ads`
(`src/App.tsx` lines 115–121). -/
def mapAd (today : String) (row : Row) : MetaAdReport :=
  { date := jsOrS (getF row "Date") today
    campaignName := jsOrS (getF row "Campaign Name") "Unknown"
    spend := jsOrQD (jsOrN (numField row "Amount Spent") (numField row "Spend")) 0
    impressions := ((jsOrZD (intField row "Impressions") 0 : ℤ) : ℚ)
    clicks := ((jsOrZD (intField row "Clicks") 0 : ℤ) : ℚ) }

/-- `handleFileUpload` (`src/App.tsx` lines 91–126) as a state transition:
parse the CSV text, then append mapped orders for `shopify_orders`, append
mapped ads for `meta_ads`, and change nothing for every other report type
(there is no branch for them). -/
def handleFileUpload (today : String) (s : AppState) (ty : ReportType) (text : String) :
    AppState :=
  let data := parseCSV text
  if ty = ReportType.shopify_orders then
    { s with orders := s.orders ++ data.mapIdx (fun idx row => mapOrder today idx row) }
  else if ty = ReportType.meta_ads then
    { s with ads := s.ads ++ data.map (fun row => mapAd today row) }
  else s

/-! ## General lemmas about the aggregation folds -/

theorem foldl_add_eq {α : Type} (f : α → ℚ) :
    ∀ (l : List α) (a : ℚ), l.foldl (fun acc curr => acc + f curr) a = a + (l.map f).sum := by
  intro l
  induction l with
  | nil => intro a; simp
  | cons x xs ih => intro a; simp [ih, add_assoc]

theorem sumBy_eq_sum_map {α : Type} (f : α → ℚ) (l : List α) :
    sumBy f l = (l.map f).sum := by
  simpa [sumBy] using foldl_add_eq f l 0

/-- If `g` preserves the measured field, a `sumBy` is invariant under mapping `g`. -/
theorem sumBy_map_invariant {α : Type} (f : α → ℚ) (g : α → α) (h : ∀ x, f (g x) = f x)
    (l : List α) : sumBy f (l.map g) = sumBy f l := by
  simp [sumBy_eq_sum_map, List.map_map, Function.comp_def, h]

theorem jsOrQ_zero_right (x : ℚ) : jsOrQ x 0 = x := by
  by_cases h : x = 0 <;> simp [jsOrQ, h]

/-! ## Verification of the claims -/

/-- The spec example orders: `2024-01-01` for `100` and `2024-01-05` for `200`
(spec §8), used with the claimed range `2024-01-02..2024-01-04`. -/
def exRangeOrders : List ShopifyOrder :=
  [{ id := "1", name := "#1001", date := "2024-01-01", total := 100, subtotal := 100, tax := 0,
     shipping := 0, lineItems := [], status := "paid" },
   { id := "2", name := "#1002", date := "2024-01-05", total := 200, subtotal := 200, tax := 0,
     shipping := 0, lineItems := [], status := "paid" }]

/-- C1, counterexample.  The claim says an order dated outside
`[startDate, endDate]` contributes nothing to any total.  On the spec's own
example — orders dated `2024-01-01` and `2024-01-05` with range
`2024-01-02..2024-01-04` — every order is outside the range (the claim thus
demands total sales `0` and `0` orders), yet the code's statistics still
count both orders: total sales `300`, order count `2`.  `stats` never
receives or consults a date range. -/
theorem dateFilter_counterexample :
    exRangeOrders.map ShopifyOrder.date = ["2024-01-01", "2024-01-05"] ∧
    dayInRange "2024-01-02" "2024-01-04" "2024-01-01" = false ∧
    dayInRange "2024-01-02" "2024-01-04" "2024-01-05" = false ∧
    (stats exRangeOrders [] [] [] []).totalSales = 300 ∧
    (stats exRangeOrders [] [] [] []).totalOrders = 2 := by
  refine ⟨by decide, by decide, by decide, ?_, by decide⟩
  norm_num [stats, sumBy, exRangeOrders]

/-- C1, amended: the statistics computation performs no date filtering — every
order in the collection contributes to the totals whatever its date (total
sales sum all orders, the order count is the full length, shipping sums all
orders), and the result is invariant under arbitrary rewriting of every
record's date. -/
theorem stats_unfiltered (orders : List ShopifyOrder) (ads : List MetaAdReport)
    (settlements : List SettlementReport) (expenses : List ManualExpense)
    (cogs : List ProductCOGS) (f : ShopifyOrder → String) :
    (stats orders ads settlements expenses cogs).totalSales = sumBy ShopifyOrder.total orders ∧
    (stats orders ads settlements expenses cogs).totalOrders = orders.length ∧
    (stats orders ads settlements expenses cogs).totalShipping
        = sumBy ShopifyOrder.shipping orders ∧
    stats (orders.map fun o => { o with date := f o }) ads settlements expenses cogs
        = stats orders ads settlements expenses cogs := by
  refine ⟨rfl, rfl, rfl, ?_⟩
  have htot : sumBy ShopifyOrder.total (orders.map fun o => { o with date := f o })
      = sumBy ShopifyOrder.total orders :=
    sumBy_map_invariant ShopifyOrder.total (fun o => { o with date := f o })
      (fun x => rfl) orders
  have hship : sumBy ShopifyOrder.shipping (orders.map fun o => { o with date := f o })
      = sumBy ShopifyOrder.shipping orders :=
    sumBy_map_invariant ShopifyOrder.shipping (fun o => { o with date := f o })
      (fun x => rfl) orders
  have hcogs : totalCogsOf cogs (orders.map fun o => { o with date := f o })
      = totalCogsOf cogs orders := by
    simp only [totalCogsOf, List.foldl_map]
  simp only [stats, htot, hship, hcogs, List.length_map]

/-- C4, confirmed: `netProfit` is exactly total sales minus ad spend, COGS,
shipping, expenses and fees, each the aggregate computed by the same call
(`totalExpenses` is not returned in `DashboardStats`, so it appears as the
expense sum the call computes). -/
theorem netProfit_formula (orders : List ShopifyOrder) (ads : List MetaAdReport)
    (settlements : List SettlementReport) (expenses : List ManualExpense)
    (cogs : List ProductCOGS) :
    (stats orders ads settlements expenses cogs).netProfit
      = (stats orders ads settlements expenses cogs).totalSales
        - (stats orders ads settlements expenses cogs).totalAdSpend
        - (stats orders ads settlements expenses cogs).totalCogs
        - (stats orders ads settlements expenses cogs).totalShipping
        - sumBy ManualExpense.amount expenses
        - (stats orders ads settlements expenses cogs).totalFees := rfl

/-- C6, confirmed: when total ad spend is zero the returned ROAS is exactly
zero (the guard `totalAdSpend > 0` fails, no division happens); with positive
ad spend ROAS is total sales divided by ad spend. -/
theorem roas_cases (orders : List ShopifyOrder) (ads : List MetaAdReport)
    (settlements : List SettlementReport) (expenses : List ManualExpense)
    (cogs : List ProductCOGS) :
    ((stats orders ads settlements expenses cogs).totalAdSpend = 0 →
      (stats orders ads settlements expenses cogs).roas = 0) ∧
    (0 < (stats orders ads settlements expenses cogs).totalAdSpend →
      (stats orders ads settlements expenses cogs).roas
        = (stats orders ads settlements expenses cogs).totalSales
          / (stats orders ads settlements expenses cogs).totalAdSpend) := by
  constructor
  · intro h
    simp only [stats] at h ⊢
    simp [h]
  · intro h
    simp only [stats] at h ⊢
    simp [h]

/-- Witness for C6 at concrete inputs: with no ads ROAS is `0`; with one ad
of spend `50` against `300` of sales ROAS is `6`. -/
theorem roas_cases_witness :
    (stats exRangeOrders [] [] [] []).roas = 0 ∧
    (stats exRangeOrders
        [{ date := "2024-01-01", campaignName := "c", spend := 50, impressions := 0, clicks := 0 }]
        [] [] []).roas = 6 := by
  constructor
  · exact (roas_cases exRangeOrders [] [] [] []).1 rfl
  · have h := (roas_cases exRangeOrders
      [{ date := "2024-01-01", campaignName := "c", spend := 50, impressions := 0, clicks := 0 }]
      [] [] []).2 (by norm_num [stats, sumBy])
    rw [h]
    norm_num [stats, sumBy, exRangeOrders]

/-- A one-order collection (total `100`) used against a nonempty settlement
report. -/
def exFeeOrders : List ShopifyOrder :=
  [{ id := "1", name := "#1001", date := "2024-01-01", total := 100, subtotal := 100, tax := 0,
     shipping := 0, lineItems := [], status := "paid" }]

/-- A settlement report with `10` of fees. -/
def exSettlements : List SettlementReport :=
  [{ orderName := "#1001", amountReceived := 90, fees := 10, status := "settled" }]

/-- C3, counterexample.  The claim says `totalFees = 0.03 × totalSales`
always, independent of settlement data.  With one settlement carrying fees
`10` and sales `100`, the code returns `totalFees = 10`, not
`0.03 × 100 = 3`; removing the settlement changes `totalFees` to `3`, so the
value does depend on settlement data. -/
theorem totalFees_counterexample :
    (stats exFeeOrders [] exSettlements [] []).totalFees = 10 ∧
    (stats exFeeOrders [] exSettlements [] []).totalSales * (3 / 100) = 3 ∧
    (stats exFeeOrders [] [] [] []).totalFees = 3 ∧
    (10 : ℚ) ≠ 3 := by
  refine ⟨?_, ?_, ?_, by norm_num⟩
  · norm_num [stats, sumBy, jsOrQ, exFeeOrders, exSettlements]
  · norm_num [stats, sumBy, exFeeOrders, exSettlements]
  · norm_num [stats, sumBy, jsOrQ, exFeeOrders]

/-- C3, amended: `totalFees` is the summed fees of the settlement reports
when that sum is nonzero, and only falls back to the 3% estimate of total
sales when the settlement fee sum is zero (in particular when no settlement
report was uploaded). -/
theorem totalFees_cases (orders : List ShopifyOrder) (ads : List MetaAdReport)
    (settlements : List SettlementReport) (expenses : List ManualExpense)
    (cogs : List ProductCOGS) :
    (sumBy SettlementReport.fees settlements ≠ 0 →
      (stats orders ads settlements expenses cogs).totalFees
        = sumBy SettlementReport.fees settlements) ∧
    (sumBy SettlementReport.fees settlements = 0 →
      (stats orders ads settlements expenses cogs).totalFees
        = (stats orders ads settlements expenses cogs).totalSales * (3 / 100)) := by
  constructor
  · intro h
    simp [stats, jsOrQ, h]
  · intro h
    simp [stats, jsOrQ, h]

/-- Witness for C3 (amended) at concrete inputs: fees `10` dominate the
estimate; with no settlements the estimate `3` is used. -/
theorem totalFees_cases_witness :
    (stats exFeeOrders [] exSettlements [] []).totalFees
        = sumBy SettlementReport.fees exSettlements ∧
    (stats exFeeOrders [] [] [] []).totalFees
        = (stats exFeeOrders [] [] [] []).totalSales * (3 / 100) := by
  constructor
  · exact (totalFees_cases exFeeOrders [] exSettlements [] []).1
      (by norm_num [sumBy, exSettlements])
  · exact (totalFees_cases exFeeOrders [] [] [] []).2 rfl

/-- The spec §8 COGS example: cost table `{SKU-A: 10}` and an order dated
`2024-01-01` whose only line item is `SKU-A` with quantity `3`. -/
def exCogsOrder : ShopifyOrder :=
  { id := "1", name := "#1001", date := "2024-01-01", total := 30, subtotal := 30, tax := 0,
    shipping := 0, lineItems := [{ sku := "SKU-A", title := "A", quantity := 3, price := 10 }],
    status := "paid" }

/-- The cost table `{SKU-A: 10}`. -/
def exCogsTable : List ProductCOGS :=
  [{ sku := "SKU-A", productName := "A", cogs := 10 }]

/-- C5, counterexample.  The claim computes COGS over the line items of the
*filtered* orders.  With the claimed range `2024-01-02..2024-01-04` the
example order (dated `2024-01-01`) is outside the range, so the claim demands
`totalCogs = 0`; the code, which never filters, returns `30`. -/
theorem totalCogs_counterexample :
    dayInRange "2024-01-02" "2024-01-04" exCogsOrder.date = false ∧
    (stats [exCogsOrder] [] [] [] exCogsTable).totalCogs = 30 ∧
    (30 : ℚ) ≠ 0 := by
  refine ⟨by decide, ?_, by norm_num⟩
  norm_num [stats, totalCogsOf, itemCogsOf, jsOrQ, exCogsOrder, exCogsTable]

/-- The claim's formulation of the per-SKU unit cost: the cost-table entry
for the SKU, or zero when the SKU has no entry. -/
def unitCost (cogs : List ProductCOGS) (sku : String) : ℚ :=
  match cogs.find? (fun c => c.sku = sku) with
  | some c => c.cogs
  | none => 0

/-- The claim's formulation of total COGS: sum, over every line item of
every order in the collection, of the unit cost times the quantity. -/
def cogsSpec (cogs : List ProductCOGS) (orders : List ShopifyOrder) : ℚ :=
  (orders.map fun o =>
    (o.lineItems.map fun item => unitCost cogs item.sku * item.quantity).sum).sum

/-- The code's per-item cost equals the claim's unit-cost lookup
(`?.cogs || 0` collapses to the found cost, since the fallback is also zero). -/
theorem itemCogsOf_eq_unitCost (cogs : List ProductCOGS) (item : LineItem) :
    itemCogsOf cogs item = unitCost cogs item.sku := by
  unfold itemCogsOf unitCost
  cases cogs.find? (fun c => c.sku = item.sku) with
  | none => rfl
  | some c => exact jsOrQ_zero_right c.cogs

/-- The nested `forEach` accumulation equals the nested sum. -/
theorem totalCogsOf_eq_cogsSpec (cogs : List ProductCOGS) (orders : List ShopifyOrder) :
    totalCogsOf cogs orders = cogsSpec cogs orders := by
  have hgen : ∀ (l : List ShopifyOrder) (a : ℚ),
      l.foldl (fun acc o => o.lineItems.foldl
        (fun acc2 item => acc2 + itemCogsOf cogs item * item.quantity) acc) a
      = a + (l.map fun o =>
          (o.lineItems.map fun item => itemCogsOf cogs item * item.quantity).sum).sum := by
    intro l
    induction l with
    | nil => intro a; simp
    | cons o os ih =>
      intro a
      simp only [List.foldl_cons, List.map_cons, List.sum_cons]
      rw [foldl_add_eq (fun item => itemCogsOf cogs item * item.quantity) o.lineItems a, ih,
        add_assoc]
  have h := hgen orders 0
  rw [totalCogsOf, h, zero_add, cogsSpec]
  simp only [itemCogsOf_eq_unitCost]

/-- C5, amended: `totalCogs` equals the sum, over every line item of every
order in the (unfiltered) collection, of the cost-table unit cost for the
item's SKU (zero when the SKU has no entry) times the item's quantity; and it
is computed from orders and the cost table alone — the ads, settlements and
expenses inputs never affect it. -/
theorem totalCogs_formula (orders : List ShopifyOrder) (ads : List MetaAdReport)
    (settlements : List SettlementReport) (expenses : List ManualExpense)
    (cogs : List ProductCOGS) (ads2 : List MetaAdReport)
    (settlements2 : List SettlementReport) (expenses2 : List ManualExpense) :
    (stats orders ads settlements expenses cogs).totalCogs = cogsSpec cogs orders ∧
    (stats orders ads settlements expenses cogs).totalCogs
      = (stats orders ads2 settlements2 expenses2 cogs).totalCogs := by
  exact ⟨totalCogsOf_eq_cogsSpec cogs orders, rfl⟩

/-- The state used against an ignored sales-report upload: one order of
total `100` and nothing else. -/
def exSalesState : AppState :=
  { orders := [{ id := "1", name := "#1001", date := "2024-01-01", total := 100, subtotal := 100,
                 tax := 0, shipping := 7, lineItems := [], status := "paid" }],
    ads := [], settlements := [], expenses := [], cogs := [] }

/-- A Shopify sales-report CSV whose single record (dated like the order,
hence inside any range containing it) carries `Total sales` of `50`. -/
def exSalesCsv : String := "Date,Total sales\n2024-01-01,50"

/-- C2, counterexample.  The claim says that when at least one sales record
survives the filter, total sales equals the summed `totalSales` of the sales
records (here `50`).  But the code has no sales-record collection at all:
uploading a sales report (`shopify_sales`) hits no branch of
`handleFileUpload` and leaves the state unchanged, and `stats` computes total
sales `100` from the orders — not `50`. -/
theorem revenueSource_counterexample :
    (parseCSV exSalesCsv).length = 1 ∧
    handleFileUpload "2024-01-01" exSalesState ReportType.shopify_sales exSalesCsv
        = exSalesState ∧
    (statsOf exSalesState).totalSales = 100 ∧
    (100 : ℚ) ≠ 50 := by
  refine ⟨by decide, rfl, ?_, by norm_num⟩
  norm_num [statsOf, stats, sumBy, exSalesState]

/-- C2, amended: sales records are never a revenue source — a
`shopify_sales` upload is ignored entirely (the state, hence every statistic,
is unchanged), and total sales and total shipping always come from the orders
collection. -/
theorem revenueSource_orders_only (today : String) (s : AppState) (text : String) :
    handleFileUpload today s ReportType.shopify_sales text = s ∧
    (statsOf s).totalSales = sumBy ShopifyOrder.total s.orders ∧
    (statsOf s).totalShipping = sumBy ShopifyOrder.shipping s.orders :=
  ⟨rfl, rfl, rfl⟩

/-- An orders CSV whose numeric cells are all unparseable. -/
def exBadCsv : String :=
  "Total,Subtotal,Tax,Shipping,SKU,Title,Quantity,Price\nabc,de,fg,hi,S1,T1,xyz,jk"

/-- C7, counterexample.  The claim says every unparseable numeric field —
including `quantity` — is coerced to zero.  On a row whose `Quantity` cell is
the unparseable `xyz`, the mapped line item has quantity `1`, not `0`
(`parseInt(row.Quantity) || 1` defaults to one); the other numeric fields do
default to zero and the row is still included. -/
theorem coercion_counterexample :
    jsParseInt "xyz" = none ∧
    (parseCSV exBadCsv).mapIdx (fun idx row => mapOrder "2024-01-01" idx row)
      = [{ id := "0", name := "Order-0", date := "2024-01-01", total := 0, subtotal := 0,
           tax := 0, shipping := 0, status := "Paid",
           lineItems := [{ sku := "S1", title := "T1", quantity := 1, price := 0 }] }] ∧
    (1 : ℚ) ≠ 0 := by
  refine ⟨by decide, by decide, by norm_num⟩

/-- C7, amended: every unparseable numeric cell is coerced to a constant
instead of dropping the row or failing — `total`, `subtotal`, `tax`,
`shipping`, `price`, `spend`, `impressions` and `clicks` default to zero,
while `quantity` defaults to one — and the mapped result always has exactly
one record per CSV row. -/
theorem coercion_defaults (today : String) (idx : ℕ) (row arow : Row)
    (hT : numField row "Total" = none) (hSub : numField row "Subtotal" = none)
    (hTax : numField row "Tax" = none) (hShip : numField row "Shipping" = none)
    (hP : numField row "Price" = none) (hQ : intField row "Quantity" = none)
    (hA1 : numField arow "Amount Spent" = none) (hA2 : numField arow "Spend" = none)
    (hI : intField arow "Impressions" = none) (hCl : intField arow "Clicks" = none) :
    (mapOrder today idx row).total = 0 ∧ (mapOrder today idx row).subtotal = 0 ∧
    (mapOrder today idx row).tax = 0 ∧ (mapOrder today idx row).shipping = 0 ∧
    ((mapOrder today idx row).lineItems.map LineItem.price) = [0] ∧
    ((mapOrder today idx row).lineItems.map LineItem.quantity) = [1] ∧
    (mapAd today arow).spend = 0 ∧ (mapAd today arow).impressions = 0 ∧
    (mapAd today arow).clicks = 0 ∧
    (∀ data : List Row,
      (data.mapIdx fun i r => mapOrder today i r).length = data.length ∧
      (data.map fun r => mapAd today r).length = data.length) := by
  simp [mapOrder, mapAd, jsOrQD, jsOrZD, jsOrN, hT, hSub, hTax, hShip, hP, hQ, hA1, hA2,
    hI, hCl]

/-- The order row of `exBadCsv`, as parsed. -/
def exBadRow : Row :=
  [("Total", "abc"), ("Subtotal", "de"), ("Tax", "fg"), ("Shipping", "hi"), ("SKU", "S1"),
   ("Title", "T1"), ("Quantity", "xyz"), ("Price", "jk")]

/-- An ads row whose numeric cells are all unparseable. -/
def exBadAdRow : Row :=
  [("Date", "2024-01-01"), ("Campaign Name", "c"), ("Amount Spent", "abc"), ("Spend", "de"),
   ("Impressions", "fg"), ("Clicks", "hi")]

/-- Witness for C7 (amended) on the concrete unparseable rows. -/
theorem coercion_defaults_witness :
    (mapOrder "2024-01-01" 0 exBadRow).total = 0 ∧
    ((mapOrder "2024-01-01" 0 exBadRow).lineItems.map LineItem.quantity) = [1] ∧
    (mapAd "2024-01-01" exBadAdRow).spend = 0 := by
  have h := coercion_defaults "2024-01-01" 0 exBadRow exBadAdRow (by decide) (by decide)
    (by decide) (by decide) (by decide) (by decide) (by decide) (by decide) (by decide)
    (by decide)
  exact ⟨h.1, h.2.2.2.2.2.1, h.2.2.2.2.2.2.1⟩

/-! ## CSV quoting (claim C9) -/

/-- Join fields into one CSV line, each field wrapped in double quotes. -/
def quoteJoin : List String → String
  | [] => ""
  | [f] => "\"" ++ f ++ "\""
  | f :: g :: rest => "\"" ++ f ++ "\"" ++ "," ++ quoteJoin (g :: rest)

/-- Inside quotes, quote-free characters — commas included — are appended to
the current field verbatim. -/
theorem splitLineAux_content (cs : List Char) (h : '"' ∉ cs) :
    ∀ (rest cur : List Char),
      splitLineAux (cs ++ rest) cur true = splitLineAux rest (cs.reverse ++ cur) true := by
  induction cs with
  | nil => intro rest cur; simp
  | cons c cs ih =>
    intro rest cur
    have hc : c ≠ '"' := fun hc => h (hc ▸ List.mem_cons_self c cs)
    have hcs : '"' ∉ cs := fun hm => h (List.mem_cons_of_mem c hm)
    show splitLineAux (c :: (cs ++ rest)) cur true = _
    rw [splitLineAux, if_neg hc, if_neg (by simp), ih hcs rest (c :: cur)]
    simp

/-- A whole double-quoted quote-free field is scanned into the current field,
with the enclosing quotes dropped and the `inQuotes` flag restored. -/
theorem splitLineAux_quoted (f : List Char) (h : '"' ∉ f) (rest cur : List Char) :
    splitLineAux ('"' :: (f ++ '"' :: rest)) cur false
      = splitLineAux rest (f.reverse ++ cur) false := by
  rw [splitLineAux, if_pos rfl]
  simp only [Bool.not_false]
  rw [splitLineAux_content f h ('"' :: rest) cur]
  rw [splitLineAux, if_pos rfl]
  simp only [Bool.not_true]

/-- `splitLine` on a line of quoted quote-free fields returns exactly the
fields (trimmed, quotes removed): a comma inside quotes never delimits. -/
theorem splitLine_quoteJoin :
    ∀ (fs : List String), (∀ f ∈ fs, '"' ∉ f.data) → fs ≠ [] →
      splitLine (quoteJoin fs) = fs.map stringTrim := by
  intro fs
  induction fs with
  | nil => intro _ hne; exact absurd rfl hne
  | cons f rest ih =>
    intro hq _
    have hf : '"' ∉ f.data := hq f (List.mem_cons_self f rest)
    cases rest with
    | nil =>
      show splitLineAux (quoteJoin [f]).toList [] false = [stringTrim f]
      have hdata : (quoteJoin [f]).toList = '"' :: (f.data ++ '"' :: []) := by
        show (("\"" ++ f ++ "\"" : String)).data = _
        simp [String.data_append]
      rw [hdata, splitLineAux_quoted f.data hf [] [], splitLineAux]
      simp
    | cons g rest2 =>
      have hq2 : ∀ x ∈ g :: rest2, '"' ∉ x.data :=
        fun x hx => hq x (List.mem_cons_of_mem f hx)
      have hdata : (quoteJoin (f :: g :: rest2)).toList
          = '"' :: (f.data ++ '"' :: ',' :: (quoteJoin (g :: rest2)).data) := by
        show (("\"" ++ f ++ "\"" ++ "," ++ quoteJoin (g :: rest2) : String)).data = _
        simp [String.data_append]
      show splitLineAux (quoteJoin (f :: g :: rest2)).toList [] false = _
      rw [hdata, splitLineAux_quoted f.data hf (',' :: (quoteJoin (g :: rest2)).data) []]
      rw [splitLineAux, if_neg (by decide), if_pos (by simp)]
      rw [List.map_cons]
      refine congrArg₂ List.cons ?_ (ih hq2 (by simp))
      simp

/-- C9, confirmed: the parser supports quoted fields — for any line of
double-quoted (quote-free) fields, a comma inside the quotes is part of the
field value, each quoted field comes back as a single value with the
enclosing quotes removed (and surrounding whitespace trimmed, as for every
field); `parseCSV` applies this scanner to the header line and to every data
row, as the concrete conjunct shows for a quoted header and a quoted data
cell. -/
theorem csv_quoted_fields (fs : List String) (hq : ∀ f ∈ fs, '"' ∉ f.data)
    (hne : fs ≠ []) :
    splitLine (quoteJoin fs) = fs.map stringTrim ∧
    parseCSV "\"a,b\",c\nx,\"y,z\"" = [[("a,b", "x"), ("c", "y,z")]] :=
  ⟨splitLine_quoteJoin fs hq hne, by decide⟩

/-- Witness for C9 on a concrete quoted line: the field `a,b` survives as one
value. -/
theorem csv_quoted_fields_witness : splitLine (quoteJoin ["a,b", "c"]) = ["a,b", "c"] := by
  have h := (csv_quoted_fields ["a,b", "c"] (by decide) (by decide)).1
  rw [h]
  decide

/-! ## Grouping lemmas for the revenue series (claims C8, C10) -/

/-- The date keys of a bucket list. -/
def bucketKeys (l : List DailyDatum) : List String := l.map DailyDatum.date

theorem bucketKeys_cons (d : DailyDatum) (ds : List DailyDatum) :
    bucketKeys (d :: ds) = d.date :: bucketKeys ds := rfl

/-- The in-place update of `addDaily` preserves every bucket's date key. -/
theorem bucketKeys_map_bump (daily : List DailyDatum) (o : ShopifyOrder) :
    bucketKeys (daily.map (fun d =>
      if d.date = o.date then { d with sales := d.sales + o.total, orders := d.orders + 1 }
      else d)) = bucketKeys daily := by
  simp only [bucketKeys, List.map_map]
  apply List.map_congr_left
  intro d _
  by_cases h : d.date = o.date <;> simp [Function.comp, h]

/-- Membership of the incoming date among the keys is what the `any` test
decides. -/
theorem mem_bucketKeys_iff_any (daily : List DailyDatum) (o : ShopifyOrder) :
    o.date ∈ bucketKeys daily ↔ daily.any (fun d => d.date = o.date) = true := by
  simp [bucketKeys, List.any_eq_true, List.mem_map]

/-- `addDaily` either keeps the key list (existing date) or appends the new
date at the end. -/
theorem bucketKeys_addDaily (daily : List DailyDatum) (o : ShopifyOrder) :
    bucketKeys (addDaily daily o)
      = if o.date ∈ bucketKeys daily then bucketKeys daily
        else bucketKeys daily ++ [o.date] := by
  unfold addDaily
  by_cases h : daily.any (fun d => d.date = o.date) = true
  · rw [if_pos h, bucketKeys_map_bump, if_pos ((mem_bucketKeys_iff_any daily o).mpr h)]
  · rw [if_neg h, if_neg (fun hm => h ((mem_bucketKeys_iff_any daily o).mp hm))]
    simp [bucketKeys]

/-- `addDaily` keeps the date keys duplicate-free. -/
theorem nodup_bucketKeys_addDaily {daily : List DailyDatum} (o : ShopifyOrder)
    (h : (bucketKeys daily).Nodup) : (bucketKeys (addDaily daily o)).Nodup := by
  rw [bucketKeys_addDaily]
  by_cases hm : o.date ∈ bucketKeys daily
  · rwa [if_pos hm]
  · rw [if_neg hm]
    simp [List.nodup_append, h, hm]

/-- When no bucket has the incoming date, the in-place update is the
identity. -/
theorem map_bump_id (o : ShopifyOrder) (ds : List DailyDatum)
    (h : ∀ x ∈ ds, x.date ≠ o.date) :
    ds.map (fun d =>
      if d.date = o.date then { d with sales := d.sales + o.total, orders := d.orders + 1 }
      else d) = ds := by
  induction ds with
  | nil => rfl
  | cons x xs ih =>
    simp only [List.map_cons]
    rw [if_neg (h x (List.mem_cons_self x xs)),
      ih (fun y hy => h y (List.mem_cons_of_mem x hy))]

/-- With duplicate-free keys, bumping the (unique) existing bucket adds the
order's total to the bucket sums and one to the bucket counts. -/
theorem sums_map_bump (o : ShopifyOrder) :
    ∀ (daily : List DailyDatum), (bucketKeys daily).Nodup →
      daily.any (fun d => d.date = o.date) = true →
      (((daily.map (fun d =>
          if d.date = o.date then { d with sales := d.sales + o.total, orders := d.orders + 1 }
          else d)).map DailyDatum.sales).sum
        = ((daily.map DailyDatum.sales).sum + o.total)) ∧
      (((daily.map (fun d =>
          if d.date = o.date then { d with sales := d.sales + o.total, orders := d.orders + 1 }
          else d)).map DailyDatum.orders).sum
        = ((daily.map DailyDatum.orders).sum + 1)) := by
  intro daily
  induction daily with
  | nil => intro _ hany; simp at hany
  | cons d ds ih =>
    intro hnd hany
    have hnd2 : (bucketKeys ds).Nodup := (List.nodup_cons.mp (by simpa [bucketKeys_cons] using hnd)).2
    by_cases hd : d.date = o.date
    · have hkey : d.date ∉ bucketKeys ds :=
        (List.nodup_cons.mp (by simpa [bucketKeys_cons] using hnd)).1
      have hni : ∀ x ∈ ds, x.date ≠ o.date := by
        intro x hx hxo
        exact hkey (by
          rw [hd, ← hxo] at *
          exact List.mem_map_of_mem DailyDatum.date hx)
      simp only [List.map_cons, List.sum_cons, if_pos hd, map_bump_id o ds hni]
      constructor
      · ring
      · omega
    · have hany2 : ds.any (fun x => x.date = o.date) = true := by
        simpa [hd] using hany
      have ihh := ih hnd2 hany2
      simp only [List.map_cons, List.sum_cons, if_neg hd, ihh.1, ihh.2]
      constructor
      · ring
      · omega

/-- One `addDaily` step adds the order's total to the summed bucket sales and
one to the summed bucket counts. -/
theorem sums_addDaily (o : ShopifyOrder) (daily : List DailyDatum)
    (h : (bucketKeys daily).Nodup) :
    (((addDaily daily o).map DailyDatum.sales).sum
        = (daily.map DailyDatum.sales).sum + o.total) ∧
    (((addDaily daily o).map DailyDatum.orders).sum
        = (daily.map DailyDatum.orders).sum + 1) := by
  unfold addDaily
  by_cases hany : daily.any (fun d => d.date = o.date) = true
  · simp only [if_pos hany]
    exact sums_map_bump o daily h hany
  · simp only [if_neg hany]
    simp

theorem sumBy_cons {α : Type} (f : α → ℚ) (x : α) (l : List α) :
    sumBy f (x :: l) = f x + sumBy f l := by
  simp [sumBy_eq_sum_map]

theorem sumBy_append {α : Type} (f : α → ℚ) (l₁ l₂ : List α) :
    sumBy f (l₁ ++ l₂) = sumBy f l₁ + sumBy f l₂ := by
  simp [sumBy_eq_sum_map]

/-- Invariants of the whole grouping fold: duplicate-free keys, and the
bucket sums accumulate exactly the orders' totals and count. -/
theorem group_invariants :
    ∀ (orders : List ShopifyOrder) (daily : List DailyDatum), (bucketKeys daily).Nodup →
      (bucketKeys (orders.foldl addDaily daily)).Nodup ∧
      ((orders.foldl addDaily daily).map DailyDatum.sales).sum
          = (daily.map DailyDatum.sales).sum + sumBy ShopifyOrder.total orders ∧
      ((orders.foldl addDaily daily).map DailyDatum.orders).sum
          = (daily.map DailyDatum.orders).sum + orders.length := by
  intro orders
  induction orders with
  | nil => intro daily h; simp [sumBy, h]
  | cons o os ih =>
    intro daily h
    have hstep := sums_addDaily o daily h
    have hnd := nodup_bucketKeys_addDaily o h
    have ihh := ih (addDaily daily o) hnd
    simp only [List.foldl_cons]
    refine ⟨ihh.1, ?_, ?_⟩
    · rw [ihh.2.1, hstep.1, sumBy_cons]
      ring
    · rw [ihh.2.2, hstep.2]
      simp only [List.length_cons]
      omega

/-- Lookup of the bucket holding a given date key (first, hence with
duplicate-free keys the unique, match). -/
def findBucket (l : List DailyDatum) (k : String) : Option DailyDatum :=
  l.find? (fun d => d.date = k)

/-- Bucket lookup commutes with the in-place update, which preserves keys. -/
theorem findBucket_map_bump (daily : List DailyDatum) (o : ShopifyOrder) (k : String) :
    findBucket (daily.map (fun d =>
      if d.date = o.date then { d with sales := d.sales + o.total, orders := d.orders + 1 }
      else d)) k
      = (findBucket daily k).map (fun d =>
          if d.date = o.date then { d with sales := d.sales + o.total, orders := d.orders + 1 }
          else d) := by
  unfold findBucket
  rw [List.find?_map]
  have hp : ((fun d : DailyDatum => decide (d.date = k)) ∘ (fun d =>
      if d.date = o.date then { d with sales := d.sales + o.total, orders := d.orders + 1 }
      else d)) = fun d : DailyDatum => decide (d.date = k) := by
    funext d
    by_cases h : d.date = o.date <;> simp [Function.comp, h]
  rw [hp]

/-- A found bucket carries the looked-up date. -/
theorem findBucket_some_date {l : List DailyDatum} {k : String} {b : DailyDatum}
    (h : findBucket l k = some b) : b.date = k := by
  have h2 : l.find? (fun d => decide (d.date = k)) = some b := h
  have h3 := @List.find?_some DailyDatum (fun d => decide (d.date = k)) b l h2
  exact of_decide_eq_true h3

/-- How one `addDaily` step changes a bucket lookup: other keys are
untouched; an existing bucket for the order's date is bumped by the order's
total and one; a missing bucket is created with the order's total and count
one. -/
theorem findBucket_addDaily (daily : List DailyDatum) (o : ShopifyOrder) (k : String) :
    (k ≠ o.date → findBucket (addDaily daily o) k = findBucket daily k) ∧
    (∀ b, findBucket daily o.date = some b →
        findBucket (addDaily daily o) o.date
          = some { b with sales := b.sales + o.total, orders := b.orders + 1 }) ∧
    (findBucket daily o.date = none →
        findBucket (addDaily daily o) o.date
          = some { date := o.date, sales := o.total, orders := 1 }) := by
  unfold addDaily
  by_cases hany : daily.any (fun d => d.date = o.date) = true
  · simp only [if_pos hany]
    refine ⟨?_, ?_, ?_⟩
    · intro hk
      rw [findBucket_map_bump]
      cases hfb : findBucket daily k with
      | none => rfl
      | some b =>
        have hdb : b.date = k := findBucket_some_date hfb
        have hne : ¬ b.date = o.date := by rw [hdb]; exact hk
        simp [if_neg hne]
    · intro b hb
      rw [findBucket_map_bump, hb]
      have hdb : b.date = o.date := findBucket_some_date hb
      simp [if_pos hdb]
    · intro hn
      obtain ⟨x, hx, hpx⟩ := List.any_eq_true.mp hany
      have hn2 : daily.find? (fun d => decide (d.date = o.date)) = none := hn
      rw [List.find?_eq_none] at hn2
      exact absurd hpx (hn2 x hx)
  · simp only [if_neg hany]
    have hnone : daily.find? (fun d : DailyDatum => decide (d.date = o.date)) = none := by
      rw [List.find?_eq_none]
      intro x hx hpx
      exact hany (List.any_eq_true.mpr ⟨x, hx, hpx⟩)
    refine ⟨?_, ?_, ?_⟩
    · intro hk
      have hne : ({ date := o.date, sales := o.total, orders := 1 } : DailyDatum).date ≠ k :=
        fun h => hk h.symm
      simp only [findBucket]
      rw [List.find?_append, List.find?_cons_of_neg _ (by simpa using hne), List.find?_nil,
        Option.or_none]
    · intro b hb
      have hb2 : daily.find? (fun d : DailyDatum => decide (d.date = o.date)) = some b := hb
      rw [hnone] at hb2
      cases hb2
    · intro _
      simp only [findBucket]
      rw [List.find?_append, hnone, Option.none_or, List.find?_cons_of_pos _ (by simp)]

/-- Full characterization of the grouping fold: the bucket for key `k`
exists exactly when some order has date `k`, and then holds the summed totals
and the count of exactly the orders with that date. -/
theorem findBucket_group (orders : List ShopifyOrder) (k : String) :
    findBucket (orders.foldl addDaily []) k
      = if (orders.filter (fun o => o.date = k)) = [] then none
        else some { date := k,
                    sales := sumBy ShopifyOrder.total (orders.filter fun o => o.date = k),
                    orders := (orders.filter fun o => o.date = k).length } := by
  induction orders using List.reverseRecOn with
  | nil => simp [findBucket]
  | append_singleton os o ih =>
    rw [List.foldl_append, List.foldl_cons, List.foldl_nil, List.filter_append]
    have hstep := findBucket_addDaily (os.foldl addDaily []) o k
    by_cases hk : k = o.date
    · subst hk
      have hfo : List.filter (fun x => decide (x.date = o.date)) [o] = [o] := by
        simp
      rw [hfo]
      by_cases hfe : os.filter (fun x => x.date = o.date) = []
      · have hnone : findBucket (os.foldl addDaily []) o.date = none := by
          rw [ih, if_pos hfe]
        rw [hstep.2.2 hnone, hfe]
        have hne : ¬ (([] ++ [o] : List ShopifyOrder) = []) := by simp
        rw [if_neg hne]
        simp [sumBy_cons, sumBy]
      · have hsome : findBucket (os.foldl addDaily []) o.date
            = some { date := o.date,
                     sales := sumBy ShopifyOrder.total (os.filter fun x => x.date = o.date),
                     orders := (os.filter fun x => x.date = o.date).length } := by
          rw [ih, if_neg hfe]
        rw [hstep.2.1 _ hsome]
        have hne : ¬ ((os.filter fun x => decide (x.date = o.date)) ++ [o] = []) := by simp
        rw [if_neg hne, sumBy_append, sumBy_cons]
        simp [sumBy]
    · have hfo : List.filter (fun x => decide (x.date = k)) [o] = [] := by
        simp
        exact fun h => hk h.symm
      rw [hfo, List.append_nil, hstep.1 hk, ih]

/-- With duplicate-free keys, looking up a member bucket's own date finds
exactly that bucket. -/
theorem findBucket_of_mem :
    ∀ {l : List DailyDatum}, (bucketKeys l).Nodup → ∀ {b : DailyDatum}, b ∈ l →
      findBucket l b.date = some b := by
  intro l
  induction l with
  | nil => intro _ b hb; cases hb
  | cons d ds ih =>
    intro hnd b hb
    have hnd2 : (bucketKeys ds).Nodup :=
      (List.nodup_cons.mp (by simpa [bucketKeys_cons] using hnd)).2
    have hdk : d.date ∉ bucketKeys ds :=
      (List.nodup_cons.mp (by simpa [bucketKeys_cons] using hnd)).1
    rcases List.mem_cons.mp hb with rfl | hb2
    · show List.find? (fun x => x.date = b.date) (b :: ds) = some b
      rw [List.find?_cons_of_pos _ (by simp)]
    · have hne : ¬ d.date = b.date := by
        intro he
        exact hdk (he ▸ List.mem_map_of_mem DailyDatum.date hb2)
      show List.find? (fun x => x.date = b.date) (d :: ds) = some b
      rw [List.find?_cons_of_neg _ (by simpa using hne)]
      exact ih hnd2 hb2

/-- C8, counterexample.  The claim produces the series from the *filtered*
revenue records.  On the spec-example orders with the claimed range
`2024-01-02..2024-01-04` no record is in range, so the claim demands an
empty series; the code returns two buckets, both dated outside the range —
`chartData` never receives or consults a date range, and never consults
sales records. -/
theorem chartData_counterexample :
    chartData exRangeOrders
      = [{ date := "2024-01-01", sales := 100, orders := 1 },
         { date := "2024-01-05", sales := 200, orders := 1 }] ∧
    (chartData exRangeOrders).map (fun b => dayInRange "2024-01-02" "2024-01-04" b.date)
      = [false, false] :=
  ⟨by decide, by decide⟩

/-- C8, amended: the revenue series is produced by grouping *all* orders (no
date filter; orders are the only revenue source) by their exact date string —
each date string gets exactly one bucket, whose sales is the sum of the
`total` of the orders with that date and whose count is their number; every
order's date appears as a bucket; and the buckets are returned sorted
ascending by the date comparator. -/
theorem chartData_grouped_sorted (orders : List ShopifyOrder) :
    (bucketKeys (chartData orders)).Nodup ∧
    (chartData orders).Pairwise (fun a b => dateKey a.date ≤ dateKey b.date) ∧
    (∀ b ∈ chartData orders,
        b.sales = sumBy ShopifyOrder.total (orders.filter fun o => o.date = b.date) ∧
        b.orders = (orders.filter fun o => o.date = b.date).length) ∧
    (∀ o ∈ orders, ∃ b ∈ chartData orders, b.date = o.date) := by
  have hperm : (chartData orders).Perm (orders.foldl addDaily []) :=
    List.perm_insertionSort dailyLe (orders.foldl addDaily [])
  have hnodup : (bucketKeys (orders.foldl addDaily [])).Nodup :=
    (group_invariants orders [] (by simp [bucketKeys])).1
  have hkeysperm : (bucketKeys (chartData orders)).Perm
      (bucketKeys (orders.foldl addDaily [])) := hperm.map DailyDatum.date
  refine ⟨hkeysperm.nodup_iff.mpr hnodup, ?_, ?_, ?_⟩
  · exact List.sorted_insertionSort dailyLe (orders.foldl addDaily [])
  · intro b hb
    have hbg : b ∈ orders.foldl addDaily [] := hperm.mem_iff.mp hb
    have hfind : findBucket (orders.foldl addDaily []) b.date = some b :=
      findBucket_of_mem hnodup hbg
    rw [findBucket_group] at hfind
    by_cases hfe : orders.filter (fun o => o.date = b.date) = []
    · rw [if_pos hfe] at hfind
      cases hfind
    · rw [if_neg hfe] at hfind
      injection hfind with hfind
      constructor
      · rw [← hfind]
      · rw [← hfind]
  · intro o ho
    have hfne : ¬ (orders.filter (fun x => x.date = o.date) = []) := by
      intro he
      have : o ∈ orders.filter (fun x => x.date = o.date) :=
        List.mem_filter.mpr ⟨ho, by simp⟩
      rw [he] at this
      cases this
    have hfind := findBucket_group orders o.date
    rw [if_neg hfne] at hfind
    refine ⟨{ date := o.date,
              sales := sumBy ShopifyOrder.total (orders.filter fun x => x.date = o.date),
              orders := (orders.filter fun x => x.date = o.date).length }, ?_, rfl⟩
    exact hperm.mem_iff.mpr (List.mem_of_find?_eq_some hfind)

/-- Witness for C8 (amended) on the spec-example orders: the
`2024-01-05` bucket sums exactly the orders of that date, and the date
`2024-01-01` has a bucket. -/
theorem chartData_grouped_sorted_witness :
    ((⟨"2024-01-05", 200, 1⟩ : DailyDatum).sales
        = sumBy ShopifyOrder.total (exRangeOrders.filter fun o => o.date = "2024-01-05")) ∧
    ((⟨"2024-01-01", 100, 1⟩ : DailyDatum).orders
        = (exRangeOrders.filter fun o => o.date = "2024-01-01").length) := by
  have h := chartData_grouped_sorted exRangeOrders
  exact ⟨(h.2.2.1 ⟨"2024-01-05", 200, 1⟩ (by decide)).1,
    (h.2.2.1 ⟨"2024-01-01", 100, 1⟩ (by decide)).2⟩

/-- C10, confirmed: the revenue series and the summary statistics agree —
the bucket sales of `chartData` sum to `stats.totalSales` and the bucket
counts sum to `stats.totalOrders`, for every state of the orders collection
(and any other inputs). -/
theorem chartData_stats_consistent (orders : List ShopifyOrder) (ads : List MetaAdReport)
    (settlements : List SettlementReport) (expenses : List ManualExpense)
    (cogs : List ProductCOGS) :
    ((chartData orders).map DailyDatum.sales).sum
        = (stats orders ads settlements expenses cogs).totalSales ∧
    ((chartData orders).map DailyDatum.orders).sum
        = (stats orders ads settlements expenses cogs).totalOrders := by
  have hperm : (chartData orders).Perm (orders.foldl addDaily []) :=
    List.perm_insertionSort dailyLe (orders.foldl addDaily [])
  have hinv := group_invariants orders [] (by simp [bucketKeys])
  constructor
  · rw [(hperm.map DailyDatum.sales).sum_eq, hinv.2.1]
    simp only [List.map_nil, List.sum_nil, zero_add]
    rfl
  · rw [(hperm.map DailyDatum.orders).sum_eq, hinv.2.2]
    simp only [List.map_nil, List.sum_nil, Nat.zero_add]
    rfl

end Hydrict
